import Mathlib

/-!
Verification of the authorization subsystem of the fund_ops_admin backend:
the access guards (`RoleChecker`, `OrganizationRoleChecker` from
`api/auth/permissions.py`), the role resolver (`enrich_mapping_with_role`
from `api/routes/user_organizations.py`) and the dynamic-role lifecycle
(`api/routes/roles.py`), shallowly embedded over list-based stores.
-/

namespace FundOps

/-- `RoleEnum.SUPER_ADMIN.value` from `api/schemas/schemas.py`. -/
def SUPER_ADMIN : String := "super_admin"

/-- A role document in the `roles` collection. Required fields follow
`RoleBase` in `api/schemas/schemas.py`; `id` is the stringified Mongo id. -/
structure Role where
  id : String
  name : String
  display_name : String
  description : Option String := none
  permissions : List (String × Bool) := []
  is_system : Bool := false
  is_active : Bool := true
deriving Repr, DecidableEq

/-- A user-organization mapping document (`user_organizations` collection),
fields from `UserOrganizationBase` plus the enrichment fields added by
`enrich_mapping_with_role`. -/
structure Membership where
  id : String
  user_id : String
  organization_id : String
  role_id : Option String := none
  role : Option String := none
  role_name : Option String := none
  role_display_name : Option String := none
  is_primary : Bool := false
deriving Repr, DecidableEq

/-- The authenticated identity as used by the guards: its id and the
platform-wide `is_superuser` flag. -/
structure User where
  id : String
  is_superuser : Bool
deriving Repr, DecidableEq

/-- Outcome of a guard: allow, or one of the two distinct 403 denials
raised in `api/auth/permissions.py`. -/
inductive GuardResult where
  | allowed
  | deniedNoAccess
  | deniedInsufficient
deriving Repr, DecidableEq

/-- The `detail` string of the HTTPException each denial carries
(`none` for an allowed request). -/
def GuardResult.detail : GuardResult → Option String
  | .allowed => none
  | .deniedNoAccess => some "You don't have access to this organization"
  | .deniedInsufficient => some "You don't have permission to perform this action"

/-- Python truthiness of an optional string field (`None` and `""` are falsy). -/
def truthy : Option String → Bool
  | none => false
  | some s => !s.isEmpty

/-- The role test on one membership row in both guards:
`org.role in self.allowed_roles or org.role == RoleEnum.SUPER_ADMIN.value`. -/
def roleMatchesAllowed (role : Option String) (allowed : List String) : Bool :=
  match role with
  | some r => allowed.contains r || r == SUPER_ADMIN
  | none => false

/-- `RoleChecker.__call__` (`api/auth/permissions.py`): superusers bypass;
otherwise allow iff some membership of the user, in any organization,
has a role in the allow-list or equal to the super-admin key. -/
def RoleChecker_call (allowed : List String) (u : User)
    (memberships : List Membership) : GuardResult :=
  if u.is_superuser then .allowed
  else
    let user_orgs := memberships.filter (fun m => m.user_id == u.id)
    if user_orgs.any (fun m => roleMatchesAllowed m.role allowed) then .allowed
    else .deniedInsufficient

/-- `OrganizationRoleChecker.__call__` (`api/auth/permissions.py`):
superusers bypass; otherwise fetch the membership for (user, organization):
none ⇒ deny "no access", role failing the allow test ⇒ deny "insufficient". -/
def OrganizationRoleChecker_call (allowed : List String) (organization_id : String)
    (u : User) (memberships : List Membership) : GuardResult :=
  if u.is_superuser then .allowed
  else
    match memberships.find?
        (fun m => m.user_id == u.id && m.organization_id == organization_id) with
    | none => .deniedNoAccess
    | some mapping =>
        if !(roleMatchesAllowed mapping.role allowed) then .deniedInsufficient
        else .allowed

/-- `get_role_by_id` (`api/routes/user_organizations.py`):
`roles_repo.get_by_id(role_id)` — first document whose id matches. -/
def get_role_by_id (store : List Role) (rid : String) : Option Role :=
  store.find? (fun r => r.id == rid)

/-- ASCII lower-casing of one character, as Python's `str.lower()` acts on
the ASCII role names used throughout the repository. -/
def lowerChar (c : Char) : Char :=
  if 65 ≤ c.toNat ∧ c.toNat ≤ 90 then Char.ofNat (c.toNat + 32) else c

/-- `role_name.lower()` on ASCII strings. -/
def lowerString (s : String) : String :=
  ⟨s.data.map lowerChar⟩

/-- `get_role_by_name` (`api/routes/user_organizations.py`):
`roles_repo.get_by_field("name", role_name.lower())`, first hit —
the query is lower-cased, the stored name is matched exactly. -/
def get_role_by_name (store : List Role) (role_name : String) : Option Role :=
  store.find? (fun r => r.name == lowerString role_name)

/-- `enrich_mapping_with_role` (`api/routes/user_organizations.py`):
the role resolver reconciling `role_id` / legacy `role` against the
Role Store. -/
def enrich_mapping_with_role (store : List Role) (m : Membership) : Membership :=
  if truthy m.role_id then
    match get_role_by_id store (m.role_id.getD "") with
    | some role =>
        { m with role_name := some role.name,
                 role_display_name := some role.display_name,
                 role := some role.name }
    | none => m
  else if truthy m.role then
    match get_role_by_name store (m.role.getD "") with
    | some role =>
        { m with role_id := some role.id,
                 role_name := some role.name,
                 role_display_name := some role.display_name }
    | none => m
  else m

/-- Request body of `POST /roles/` (`RoleCreate` in `api/schemas/schemas.py`);
`is_system` and `is_active` carry their schema defaults. -/
structure RoleCreate where
  name : String
  display_name : String
  description : Option String := none
  permissions : List (String × Bool) := []
  is_system : Bool := false
  is_active : Bool := true
deriving Repr, DecidableEq

/-- The role document persisted for a create request: `role.model_dump()`
plus the store-assigned id. -/
def roleOfCreate (newId : String) (rc : RoleCreate) : Role :=
  { id := newId, name := rc.name, display_name := rc.display_name,
    description := rc.description, permissions := rc.permissions,
    is_system := rc.is_system, is_active := rc.is_active }

inductive CreateRoleResult where
  | conflict
  | created (role : Role) (store : List Role)
deriving Repr, DecidableEq

/-- `create_role` (`api/routes/roles.py`): 400 if a role with the same
(exact) name exists, otherwise persist the dumped model. -/
def create_role (store : List Role) (rc : RoleCreate) (newId : String) :
    CreateRoleResult :=
  if (store.filter (fun r => r.name == rc.name)).isEmpty then
    .created (roleOfCreate newId rc) (store ++ [roleOfCreate newId rc])
  else .conflict

/-- `DEFAULT_ROLES` (`api/routes/roles.py`). -/
def DEFAULT_ROLES : List RoleCreate :=
  [ { name := "admin", display_name := "Admin",
      description := some "Full administrative access to the organization",
      permissions := [("can_manage_users", true), ("can_manage_funds", true),
        ("can_manage_investors", true), ("can_manage_properties", true),
        ("can_view_all_data", true), ("can_view_financials", true),
        ("can_approve_transactions", true)],
      is_system := true, is_active := true },
    { name := "fund_manager", display_name := "Fund Manager",
      description := some "Can manage funds, investors, and properties",
      permissions := [("can_manage_users", false), ("can_manage_funds", true),
        ("can_manage_investors", true), ("can_manage_properties", true),
        ("can_view_all_data", true), ("can_view_financials", true),
        ("can_approve_transactions", true)],
      is_system := true, is_active := true },
    { name := "analyst", display_name := "Analyst",
      description := some "Can view and analyze data but cannot make changes",
      permissions := [("can_manage_users", false), ("can_manage_funds", false),
        ("can_manage_investors", false), ("can_manage_properties", false),
        ("can_view_all_data", true), ("can_view_financials", true),
        ("can_approve_transactions", false)],
      is_system := true, is_active := true },
    { name := "viewer", display_name := "Viewer",
      description := some "Read-only access to data",
      permissions := [("can_manage_users", false), ("can_manage_funds", false),
        ("can_manage_investors", false), ("can_manage_properties", false),
        ("can_view_all_data", true), ("can_view_financials", false),
        ("can_approve_transactions", false)],
      is_system := true, is_active := true } ]

/-- One iteration of the loop in `seed_default_roles`: create the default
role only when no role with that name exists. -/
def seedStep (store : List Role) (rd : RoleCreate) (newId : String) : List Role :=
  if (store.filter (fun r => r.name == rd.name)).isEmpty then
    store ++ [roleOfCreate newId rd]
  else store

/-- The loop of `seed_default_roles` over a list of default definitions,
with `ids n` the store-assigned id of the document created at step `n`. -/
def seedRolesAux : List Role → List RoleCreate → (Nat → String) → Nat → List Role
  | store, [], _, _ => store
  | store, rd :: rest, ids, n => seedRolesAux (seedStep store rd (ids n)) rest ids (n + 1)

/-- `seed_default_roles` (`api/routes/roles.py`). -/
def seed_default_roles (store : List Role) (ids : Nat → String) : List Role :=
  seedRolesAux store DEFAULT_ROLES ids 0

/-- Request body of `PUT /roles/{id}` (`RoleUpdate` in
`api/schemas/schemas.py`): no `is_system` field; `none` models an
unset-or-null field (null values are dropped by `MongoRepository.update`). -/
structure RoleUpdate where
  name : Option String := none
  display_name : Option String := none
  description : Option String := none
  permissions : Option (List (String × Bool)) := none
  is_active : Option Bool := none
deriving Repr, DecidableEq

/-- Effect of `$set` with the non-null fields of a `RoleUpdate` on one
role document. -/
def applyRoleUpdate (r : Role) (ru : RoleUpdate) : Role :=
  { r with
    name := ru.name.getD r.name,
    display_name := ru.display_name.getD r.display_name,
    description := match ru.description with
      | some d => some d
      | none => r.description,
    permissions := ru.permissions.getD r.permissions,
    is_active := ru.is_active.getD r.is_active }

inductive UpdateRoleResult where
  | notFound
  | forbiddenSystemName
  | updated (role : Role) (store : List Role)
deriving Repr, DecidableEq

/-- `update_role` (`api/routes/roles.py`): 404 when the role is absent;
400 when it is a system role and `role_update.name` is truthy; otherwise
apply the update. -/
def update_role (store : List Role) (rid : String) (ru : RoleUpdate) :
    UpdateRoleResult :=
  match store.find? (fun r => r.id == rid) with
  | none => .notFound
  | some existing =>
      if existing.is_system && truthy ru.name then .forbiddenSystemName
      else
        .updated (applyRoleUpdate existing ru)
          (store.map (fun r => if r.id == rid then applyRoleUpdate r ru else r))

inductive DeleteRoleResult where
  | notFound
  | forbiddenSystem
  | inUse (count : Nat)
  | deleted (store : List Role)
deriving Repr, DecidableEq

/-- `delete_role` (`api/routes/roles.py`): 404 when absent, 400 for system
roles, 400 reporting the count of memberships whose `role_id` references
the role when that count is positive, else remove the document. -/
def delete_role (roles : List Role) (memberships : List Membership)
    (rid : String) : DeleteRoleResult :=
  match roles.find? (fun r => r.id == rid) with
  | none => .notFound
  | some existing =>
      if existing.is_system then .forbiddenSystem
      else
        let users_with_role := memberships.filter (fun m => m.role_id == some rid)
        if !users_with_role.isEmpty then .inUse users_with_role.length
        else .deleted (roles.filter (fun r => !(r.id == rid)))

/-- C1: a user holding the super-admin role through a membership in some
organization passes the Global Guard (`RoleChecker`) for every allowed-roles
list; the guard never consults the organization an operation concerns, so
this covers operations about organizations the user has no membership in. -/
theorem C1_super_admin_in_any_org_passes_global_guard
    (u : User) (ms : List Membership) (allowed : List String) (m : Membership)
    (hm : m ∈ ms) (hu : m.user_id = u.id) (hr : m.role = some SUPER_ADMIN) :
    RoleChecker_call allowed u ms = .allowed := by
  unfold RoleChecker_call
  by_cases hs : u.is_superuser
  · simp [hs]
  · have hany : (ms.filter (fun x => x.user_id == u.id)).any
        (fun x => roleMatchesAllowed x.role allowed) = true := by
      rw [List.any_eq_true]
      refine ⟨m, List.mem_filter.mpr ⟨hm, by simp [hu]⟩, ?_⟩
      simp [roleMatchesAllowed, hr]
    simp [hs, hany]

/-- Witness for C1: a non-superuser with a super-admin membership in
`"orgA"` passes the Global Guard for the empty allow-list. -/
theorem C1_witness :
    RoleChecker_call [] ⟨"u1", false⟩
      [⟨"m1", "u1", "orgA", none, some SUPER_ADMIN, none, none, false⟩]
      = .allowed :=
  C1_super_admin_in_any_org_passes_global_guard ⟨"u1", false⟩ _ []
    ⟨"m1", "u1", "orgA", none, some SUPER_ADMIN, none, none, false⟩
    (List.Mem.head _) rfl rfl

/-- C3: for a non-platform-admin, the Organization-Scoped Guard denies with
the "no access to this organization" outcome when no membership row matches
(user, organization), denies with the "insufficient permission" outcome when
a membership exists but its role is neither super-admin nor in the
allow-list, and the two denials carry distinct detail strings. -/
theorem C3_org_guard_distinct_denials
    (u : User) (ms : List Membership) (allowed : List String) (oid : String)
    (hns : u.is_superuser = false) :
    ((¬ ∃ m ∈ ms, m.user_id = u.id ∧ m.organization_id = oid) →
        OrganizationRoleChecker_call allowed oid u ms = .deniedNoAccess) ∧
    ((∃ m ∈ ms, m.user_id = u.id ∧ m.organization_id = oid) →
      (∀ m ∈ ms, m.user_id = u.id → m.organization_id = oid →
        ∀ r, m.role = some r → r ∉ allowed ∧ r ≠ SUPER_ADMIN) →
        OrganizationRoleChecker_call allowed oid u ms = .deniedInsufficient) ∧
    GuardResult.detail .deniedNoAccess ≠ GuardResult.detail .deniedInsufficient := by
  refine ⟨?_, ?_, by decide⟩
  · intro hno
    have hfind : ms.find?
        (fun x => x.user_id == u.id && x.organization_id == oid) = none := by
      rw [List.find?_eq_none]
      intro x hx hpx
      simp only [Bool.and_eq_true, beq_iff_eq] at hpx
      exact hno ⟨x, hx, hpx.1, hpx.2⟩
    simp [OrganizationRoleChecker_call, hns, hfind]
  · rintro ⟨m0, hm0, hu0, ho0⟩ hall
    have hsome : (ms.find?
        (fun x => x.user_id == u.id && x.organization_id == oid)).isSome := by
      rw [List.find?_isSome]
      exact ⟨m0, hm0, by simp [hu0, ho0]⟩
    obtain ⟨mf, hmf⟩ := Option.isSome_iff_exists.mp hsome
    have hmem := List.mem_of_find?_eq_some hmf
    have hp := List.find?_some hmf
    simp only [Bool.and_eq_true, beq_iff_eq] at hp
    have hrole := hall mf hmem hp.1 hp.2
    have hfalse : roleMatchesAllowed mf.role allowed = false := by
      cases hr : mf.role with
      | none => rfl
      | some r =>
          obtain ⟨hna, hnsup⟩ := hrole r hr
          simp [roleMatchesAllowed, hna, hnsup]
    simp [OrganizationRoleChecker_call, hns, hmf, hfalse]

/-- Witness for C3: a user whose only membership is in `"o1"` is denied
with the "no access" outcome for organization `"o2"`. -/
theorem C3_witness :
    OrganizationRoleChecker_call ["cfo"] "o2" ⟨"u1", false⟩
      [⟨"m1", "u1", "o1", none, some "cfo", none, none, false⟩]
      = .deniedNoAccess :=
  (C3_org_guard_distinct_denials ⟨"u1", false⟩ _ ["cfo"] "o2" rfl).1 (by decide)

/-- C4: on a membership with a (non-empty) `role_id`, the resolver sets
`role_name` and `role_display_name` from the referenced role document and
overwrites the legacy `role` field with the canonical name; when no role
with that id exists, the membership is returned unchanged, the stale id
still in place. -/
theorem C4_enrich_with_role_id
    (store : List Role) (m : Membership) (rid : String)
    (hid : m.role_id = some rid) (hne : rid ≠ "") :
    (∀ role, get_role_by_id store rid = some role →
      enrich_mapping_with_role store m =
        { m with role_name := some role.name,
                 role_display_name := some role.display_name,
                 role := some role.name }) ∧
    (get_role_by_id store rid = none → enrich_mapping_with_role store m = m) := by
  have hemp : rid.isEmpty = false := by
    cases h : rid.isEmpty
    · rfl
    · exact absurd ((String.isEmpty_iff rid).mp h) hne
  have htr : truthy (some rid) = true := by simp [truthy, hemp]
  constructor
  · intro role hrole
    simp [enrich_mapping_with_role, hid, htr, hrole]
  · intro hnone
    simp [enrich_mapping_with_role, hid, htr, hnone]

/-- Witness for C4: a membership whose `role_id` references the
`fund_manager` role has its role fields set from that document, the stale
legacy `role` overwritten. -/
theorem C4_witness :
    enrich_mapping_with_role
      [⟨"r1", "fund_manager", "Fund Manager", none, [], false, true⟩]
      ⟨"m1", "u1", "o1", some "r1", some "stale", none, none, false⟩
      = ⟨"m1", "u1", "o1", some "r1", some "fund_manager",
          some "fund_manager", some "Fund Manager", false⟩ := by
  have h := (C4_enrich_with_role_id
      [⟨"r1", "fund_manager", "Fund Manager", none, [], false, true⟩]
      ⟨"m1", "u1", "o1", some "r1", some "stale", none, none, false⟩
      "r1" rfl (by decide)).1
      ⟨"r1", "fund_manager", "Fund Manager", none, [], false, true⟩ (by decide)
  simpa using h

/-- Counterexample for C2: a membership whose `role_id` references the
role document named `super_admin` — so its resolved role name is the
super-admin key — but whose stored legacy `role` string is `"viewer"` is
denied by both guards even for the empty allow-list, where the claim
requires an allow. -/
theorem C2_counterexample :
    (enrich_mapping_with_role
        [⟨"r1", SUPER_ADMIN, "Super Admin", none, [], true, true⟩]
        ⟨"m1", "u1", "o1", some "r1", some "viewer", none, none, false⟩).role_name
      = some SUPER_ADMIN ∧
    RoleChecker_call [] ⟨"u1", false⟩
        [⟨"m1", "u1", "o1", some "r1", some "viewer", none, none, false⟩]
      = .deniedInsufficient ∧
    OrganizationRoleChecker_call [] "o1" ⟨"u1", false⟩
        [⟨"m1", "u1", "o1", some "r1", some "viewer", none, none, false⟩]
      = .deniedInsufficient := by
  refine ⟨by decide, by decide, by decide⟩

/-- C2 amended: both guards decide on the legacy `role` string stored on
the membership record, never on the role resolved through `role_id`: the
Global Guard allows iff some membership of the user stores a role string
that is the super-admin key or in the allowed list, the Organization-Scoped
Guard applies the same test to the first membership found for
(user, organization), and rewriting `role_id` arbitrarily changes neither
guard's decision. -/
theorem C2_guards_decide_on_stored_role
    (u : User) (allowed : List String) (ms : List Membership) (oid : String)
    (f : Membership → Option String) (hns : u.is_superuser = false) :
    (RoleChecker_call allowed u ms = .allowed ↔
      ∃ m ∈ ms, m.user_id = u.id ∧
        ∃ r, m.role = some r ∧ (r ∈ allowed ∨ r = SUPER_ADMIN)) ∧
    (∀ m, ms.find? (fun x => x.user_id == u.id && x.organization_id == oid)
        = some m →
      (OrganizationRoleChecker_call allowed oid u ms = .allowed ↔
        ∃ r, m.role = some r ∧ (r ∈ allowed ∨ r = SUPER_ADMIN))) ∧
    (RoleChecker_call allowed u (ms.map (fun m => { m with role_id := f m }))
      = RoleChecker_call allowed u ms) ∧
    (OrganizationRoleChecker_call allowed oid u
        (ms.map (fun m => { m with role_id := f m }))
      = OrganizationRoleChecker_call allowed oid u ms) := by
  have hmatch : ∀ m : Membership,
      roleMatchesAllowed m.role allowed = true ↔
        ∃ r, m.role = some r ∧ (r ∈ allowed ∨ r = SUPER_ADMIN) := by
    intro m
    cases hr : m.role with
    | none => simp [roleMatchesAllowed]
    | some r =>
        simp only [roleMatchesAllowed, Bool.or_eq_true, beq_iff_eq,
          Option.some.injEq]
        constructor
        · rintro (hc | hc)
          · exact ⟨r, rfl, Or.inl (List.elem_iff.mp hc)⟩
          · exact ⟨r, rfl, Or.inr hc⟩
        · rintro ⟨r', hr', (hc | hc)⟩
          · cases hr'; exact Or.inl (List.elem_iff.mpr hc)
          · cases hr'; exact Or.inr hc
  refine ⟨?_, ?_, ?_, ?_⟩
  · unfold RoleChecker_call
    simp only [hns, if_false, Bool.false_eq_true]
    constructor
    · intro h
      by_cases hany : (ms.filter (fun x => x.user_id == u.id)).any
          (fun x => roleMatchesAllowed x.role allowed) = true
      · obtain ⟨m, hmf, hmr⟩ := List.any_eq_true.mp hany
        obtain ⟨hmem, hpu⟩ := List.mem_filter.mp hmf
        exact ⟨m, hmem, by simpa using hpu, (hmatch m).mp hmr⟩
      · simp [hany] at h
    · rintro ⟨m, hmem, hpu, hrole⟩
      have hany : (ms.filter (fun x => x.user_id == u.id)).any
          (fun x => roleMatchesAllowed x.role allowed) = true := by
        rw [List.any_eq_true]
        exact ⟨m, List.mem_filter.mpr ⟨hmem, by simp [hpu]⟩, (hmatch m).mpr hrole⟩
      simp [hany]
  · intro m hm
    unfold OrganizationRoleChecker_call
    simp only [hns, if_false, Bool.false_eq_true, hm]
    constructor
    · intro h
      by_cases hrm : roleMatchesAllowed m.role allowed = true
      · exact (hmatch m).mp hrm
      · simp [hrm] at h
    · intro hrole
      simp [(hmatch m).mpr hrole]
  · unfold RoleChecker_call
    simp only [List.filter_map, List.any_map, Function.comp_def]
  · unfold OrganizationRoleChecker_call
    simp only [List.find?_map, Function.comp_def]
    cases ms.find? (fun x => x.user_id == u.id && x.organization_id == oid) with
    | none => rfl
    | some m => rfl

/-- Witness for C2: with the allow-list `["cfo"]`, a user whose membership
stores the legacy role string `"cfo"` is allowed by the Global Guard. -/
theorem C2_witness :
    RoleChecker_call ["cfo"] ⟨"u1", false⟩
      [⟨"m1", "u1", "o1", none, some "cfo", none, none, false⟩] = .allowed :=
  (C2_guards_decide_on_stored_role ⟨"u1", false⟩ ["cfo"]
      [⟨"m1", "u1", "o1", none, some "cfo", none, none, false⟩] "o1"
      (fun _ => none) rfl).1.mpr
    ⟨_, List.Mem.head _, rfl, "cfo", rfl, Or.inl (List.Mem.head _)⟩

/-- Counterexample for C5: the store holds a role whose stored name `"CFO"`
matches the legacy name `"cfo"` case-insensitively, yet the resolver
returns the legacy membership unchanged, with no `role_id` backfilled —
the lookup is not case-insensitive on the stored side. -/
theorem C5_counterexample :
    ([(⟨"r1", "CFO", "Chief Financial Officer", none, [], false, true⟩ : Role)].any
      (fun r => lowerString r.name == lowerString "cfo")) = true ∧
    enrich_mapping_with_role
        [⟨"r1", "CFO", "Chief Financial Officer", none, [], false, true⟩]
        ⟨"m1", "u1", "o1", none, some "cfo", none, none, false⟩
      = ⟨"m1", "u1", "o1", none, some "cfo", none, none, false⟩ := by
  refine ⟨by decide, by decide⟩

/-- C5 amended: on a legacy-only membership the resolver lower-cases the
queried name and matches it exactly against stored names (so only roles
stored with the lower-cased name can be found); on a hit it backfills
`role_id`, `role_name` and `role_display_name`, on a miss it returns the
membership exactly as the legacy record, role name verbatim, no `role_id`. -/
theorem C5_enrich_legacy_name
    (store : List Role) (m : Membership) (rn : String)
    (hid : m.role_id = none) (hr : m.role = some rn) (hne : rn ≠ "") :
    (∀ role, get_role_by_name store rn = some role →
       role.name = lowerString rn ∧
       enrich_mapping_with_role store m =
         { m with role_id := some role.id, role_name := some role.name,
                  role_display_name := some role.display_name }) ∧
    (get_role_by_name store rn = none → enrich_mapping_with_role store m = m) := by
  have hemp : rn.isEmpty = false := by
    cases h : rn.isEmpty
    · rfl
    · exact absurd ((String.isEmpty_iff rn).mp h) hne
  have htr : truthy (some rn) = true := by simp [truthy, hemp]
  constructor
  · intro role hrole
    refine ⟨?_, ?_⟩
    · have hp := List.find?_some hrole
      simpa [beq_iff_eq] using hp
    · simp [enrich_mapping_with_role, hid, truthy, hr, hemp, hrole]
  · intro hnone
    simp [enrich_mapping_with_role, hid, truthy, hr, hemp, hnone]

/-- Witness for C5: the legacy name `"CFO"` is lower-cased to `"cfo"` and
finds the role stored under that exact name, which is backfilled. -/
theorem C5_witness :
    enrich_mapping_with_role
      [⟨"rc", "cfo", "Chief Financial Officer", none, [], false, true⟩]
      ⟨"m1", "u1", "o1", none, some "CFO", none, none, false⟩
      = ⟨"m1", "u1", "o1", some "rc", some "CFO", some "cfo",
          some "Chief Financial Officer", false⟩ := by
  have h := ((C5_enrich_legacy_name
      [⟨"rc", "cfo", "Chief Financial Officer", none, [], false, true⟩]
      ⟨"m1", "u1", "o1", none, some "CFO", none, none, false⟩
      "CFO" rfl rfl (by decide)).1
      ⟨"rc", "cfo", "Chief Financial Officer", none, [], false, true⟩
      (by decide)).2
  simpa using h

/-- C6: for an existing role, deletion is rejected as `forbiddenSystem`
when `is_system` is true; otherwise, when the number of memberships
referencing the role by id is positive, it is rejected as `inUse`
reporting exactly that count; otherwise the role document is removed and
every other role is kept. -/
theorem C6_delete_role_lifecycle
    (roles : List Role) (ms : List Membership) (rid : String) (role : Role)
    (hfind : roles.find? (fun r => r.id == rid) = some role) :
    (role.is_system = true → delete_role roles ms rid = .forbiddenSystem) ∧
    (role.is_system = false →
      ∀ c, (ms.filter (fun m => m.role_id == some rid)).length = c → 0 < c →
        delete_role roles ms rid = .inUse c) ∧
    (role.is_system = false → (∀ m ∈ ms, m.role_id ≠ some rid) →
      ∃ rs, delete_role roles ms rid = .deleted rs ∧
        (∀ r ∈ rs, r.id ≠ rid) ∧ (∀ r ∈ roles, r.id ≠ rid → r ∈ rs)) := by
  refine ⟨?_, ?_, ?_⟩
  · intro hsys
    simp [delete_role, hfind, hsys]
  · intro hsys c hc hpos
    have hne : (ms.filter (fun m => m.role_id == some rid)).isEmpty = false := by
      cases h : (ms.filter (fun m => m.role_id == some rid)).isEmpty
      · rfl
      · have := List.isEmpty_iff_length_eq_zero.mp h
        omega
    simp [delete_role, hfind, hsys, hne, hc]
  · intro hsys hno
    have hfil : ms.filter (fun m => m.role_id == some rid) = [] := by
      rw [List.filter_eq_nil_iff]
      intro m hm
      simp only [beq_iff_eq]
      exact hno m hm
    refine ⟨roles.filter (fun r => !(r.id == rid)), ?_, ?_, ?_⟩
    · simp [delete_role, hfind, hsys, hfil]
    · intro r hr
      have := (List.mem_filter.mp hr).2
      simpa using this
    · intro r hr hne
      exact List.mem_filter.mpr ⟨hr, by simpa using hne⟩

/-- Witness for C6: a custom role referenced by three memberships is
rejected as in-use with count 3. -/
theorem C6_witness :
    delete_role [⟨"r1", "custom", "Custom", none, [], false, true⟩]
      [⟨"m1", "u1", "o1", some "r1", some "custom", none, none, false⟩,
       ⟨"m2", "u2", "o1", some "r1", some "custom", none, none, false⟩,
       ⟨"m3", "u3", "o2", some "r1", some "custom", none, none, false⟩] "r1"
      = .inUse 3 :=
  (C6_delete_role_lifecycle _ _ "r1"
      ⟨"r1", "custom", "Custom", none, [], false, true⟩ (by decide)).2.1
    rfl 3 (by decide) (by decide)

/-- C10: for a non-system existing role, deletion raises the in-use error
iff at least one membership stores `role_id` equal to the role's id; when
no membership does — in particular when memberships reference the role only
through the legacy name field — the deletion goes through. -/
theorem C10_in_use_guard_counts_only_role_id
    (roles : List Role) (ms : List Membership) (rid : String) (role : Role)
    (hfind : roles.find? (fun r => r.id == rid) = some role)
    (hsys : role.is_system = false) :
    ((∃ c, delete_role roles ms rid = .inUse c) ↔
      ∃ m ∈ ms, m.role_id = some rid) ∧
    ((∀ m ∈ ms, m.role_id ≠ some rid) →
      delete_role roles ms rid
        = .deleted (roles.filter (fun r => !(r.id == rid)))) := by
  have hdel : (∀ m ∈ ms, m.role_id ≠ some rid) →
      delete_role roles ms rid
        = .deleted (roles.filter (fun r => !(r.id == rid))) := by
    intro hno
    have hfil : ms.filter (fun m => m.role_id == some rid) = [] := by
      rw [List.filter_eq_nil_iff]
      intro m hm
      simp only [beq_iff_eq]
      exact hno m hm
    simp [delete_role, hfind, hsys, hfil]
  refine ⟨⟨?_, ?_⟩, hdel⟩
  · rintro ⟨c, hc⟩
    by_contra hno
    push_neg at hno
    rw [hdel hno] at hc
    exact DeleteRoleResult.noConfusion hc
  · rintro ⟨m, hm, hrid⟩
    have hmm : m ∈ ms.filter (fun x => x.role_id == some rid) :=
      List.mem_filter.mpr ⟨hm, by simp [hrid]⟩
    have hne : (ms.filter (fun x => x.role_id == some rid)).isEmpty = false := by
      cases h : (ms.filter (fun x => x.role_id == some rid)).isEmpty
      · rfl
      · rw [List.isEmpty_iff.mp h] at hmm
        exact absurd hmm (List.not_mem_nil m)
    exact ⟨(ms.filter (fun x => x.role_id == some rid)).length,
      by simp [delete_role, hfind, hsys, hne]⟩

/-- Witness for C10: a membership that references the role only through
the legacy name `"custom"` does not block deletion. -/
theorem C10_witness :
    delete_role [⟨"r1", "custom", "Custom", none, [], false, true⟩]
      [⟨"m1", "u1", "o1", none, some "custom", none, none, false⟩] "r1"
      = .deleted [] := by
  have h := (C10_in_use_guard_counts_only_role_id
      [⟨"r1", "custom", "Custom", none, [], false, true⟩]
      [⟨"m1", "u1", "o1", none, some "custom", none, none, false⟩] "r1"
      ⟨"r1", "custom", "Custom", none, [], false, true⟩ (by decide) rfl).2
      (by decide)
  simpa using h

/-- C7, code evaluated at the failing input: on the system role `admin`,
an update with a non-empty name is rejected and a `display_name`-only
update succeeds — but an update whose `name` is the empty string slips
past the Python-truthiness guard (`role_update.name` is falsy for `""`)
and changes the system role's name to `""`, so the name is not invariant
under the update operation. -/
theorem C7_system_role_name_mutable_via_empty_string :
    update_role [⟨"r1", "admin", "Admin", none, [], true, true⟩] "r1"
        { name := some "x" } = .forbiddenSystemName ∧
    update_role [⟨"r1", "admin", "Admin", none, [], true, true⟩] "r1"
        { display_name := some "Boss" }
      = .updated ⟨"r1", "admin", "Boss", none, [], true, true⟩
          [⟨"r1", "admin", "Boss", none, [], true, true⟩] ∧
    update_role [⟨"r1", "admin", "Admin", none, [], true, true⟩] "r1"
        { name := some "" }
      = .updated ⟨"r1", "", "Admin", none, [], true, true⟩
          [⟨"r1", "", "Admin", none, [], true, true⟩] := by
  refine ⟨by decide, by decide, by decide⟩

/-- Counterexample for C8: a create request that explicitly sets
`is_system = true` is persisted as a system role by `create_role` — the
handler does not force `is_system` to false. -/
theorem C8_counterexample :
    create_role [] ⟨"shadow", "Shadow", none, [], true, true⟩ "id1"
      = .created ⟨"id1", "shadow", "Shadow", none, [], true, true⟩
          [⟨"id1", "shadow", "Shadow", none, [], true, true⟩] ∧
    (⟨"id1", "shadow", "Shadow", none, [], true, true⟩ : Role).is_system
      = true := by
  refine ⟨by decide, by decide⟩

/-- C8 amended: `create_role` rejects with a conflict when a role with the
same (case-sensitively equal) name exists, creating nothing; otherwise the
persisted document is the dumped request model, whose `is_system` flag is
whatever the request carried — false only by schema default, not forced. -/
theorem C8_create_role_conflict_and_passthrough
    (store : List Role) (rc : RoleCreate) (newId : String) :
    ((∃ r ∈ store, r.name = rc.name) → create_role store rc newId = .conflict) ∧
    ((∀ r ∈ store, r.name ≠ rc.name) →
      create_role store rc newId
        = .created (roleOfCreate newId rc) (store ++ [roleOfCreate newId rc])) ∧
    (roleOfCreate newId rc).is_system = rc.is_system := by
  refine ⟨?_, ?_, rfl⟩
  · rintro ⟨r, hr, hname⟩
    have hm : r ∈ store.filter (fun x => x.name == rc.name) :=
      List.mem_filter.mpr ⟨hr, by simp [hname]⟩
    have hne : (store.filter (fun x => x.name == rc.name)).isEmpty = false := by
      cases h : (store.filter (fun x => x.name == rc.name)).isEmpty
      · rfl
      · rw [List.isEmpty_iff.mp h] at hm
        exact absurd hm (List.not_mem_nil r)
    simp [create_role, hne]
  · intro hno
    have hfil : store.filter (fun x => x.name == rc.name) = [] := by
      rw [List.filter_eq_nil_iff]
      intro x hx
      simp only [beq_iff_eq]
      exact hno x hx
    simp [create_role, hfil]

/-- Witness for C8: creating a role named `admin` when one already exists
yields the conflict outcome. -/
theorem C8_witness :
    create_role [⟨"a1", "admin", "Admin", none, [], true, true⟩]
      { name := "admin", display_name := "Admin Again" } "id2" = .conflict :=
  (C8_create_role_conflict_and_passthrough
      [⟨"a1", "admin", "Admin", none, [], true, true⟩]
      { name := "admin", display_name := "Admin Again" } "id2").1
    ⟨_, List.Mem.head _, rfl⟩

/-- Number of role documents in a store carrying a given name. -/
def countByName (store : List Role) (n : String) : Nat :=
  (store.filter (fun r => r.name == n)).length

/-- The names of the four default system role definitions. -/
def defaultRoleNames : List String := DEFAULT_ROLES.map RoleCreate.name

lemma seedStep_count (store : List Role) (rd : RoleCreate) (i : String)
    (n : String) :
    countByName (seedStep store rd i) n =
      if countByName store rd.name = 0 ∧ rd.name = n then 1
      else countByName store n := by
  by_cases h0 : (store.filter (fun r => r.name == rd.name)).isEmpty = true
  · have hz : countByName store rd.name = 0 := by
      simpa [countByName] using List.isEmpty_iff_length_eq_zero.mp h0
    unfold seedStep
    rw [if_pos h0]
    by_cases hn : rd.name = n
    · rw [if_pos ⟨hz, hn⟩]
      subst hn
      unfold countByName at hz ⊢
      rw [List.filter_append, List.length_append]
      have h1 : (List.filter (fun r => r.name == rd.name)
          [roleOfCreate i rd]).length = 1 := by
        simp [roleOfCreate]
      omega
    · rw [if_neg (fun hc => hn hc.2)]
      unfold countByName
      rw [List.filter_append, List.length_append]
      have h1 : (List.filter (fun r => r.name == n)
          [roleOfCreate i rd]).length = 0 := by
        simp [roleOfCreate, hn]
      omega
  · have hnz : ¬ (countByName store rd.name = 0) := by
      intro hz
      exact h0 (List.isEmpty_iff_length_eq_zero.mpr
        (by simpa [countByName] using hz))
    unfold seedStep
    rw [if_neg h0, if_neg (fun hc => hnz hc.1)]

lemma seedRolesAux_count (rds : List RoleCreate) :
    ∀ (store : List Role) (ids : Nat → String) (k : Nat) (n : String),
    countByName (seedRolesAux store rds ids k) n =
      if countByName store n = 0 ∧ n ∈ rds.map RoleCreate.name then 1
      else countByName store n := by
  induction rds with
  | nil =>
      intro store ids k n
      simp [seedRolesAux]
  | cons rd rest ih =>
      intro store ids k n
      simp only [seedRolesAux]
      rw [ih, seedStep_count]
      by_cases hA : countByName store rd.name = 0 ∧ rd.name = n
      · obtain ⟨hz, he⟩ := hA
        subst he
        have hin : countByName store rd.name = 0 ∧ rd.name = rd.name := ⟨hz, rfl⟩
        rw [if_pos hin]
        have hout : ¬ ((1 : Nat) = 0 ∧
            rd.name ∈ List.map RoleCreate.name rest) :=
          fun hc => absurd hc.1 one_ne_zero
        rw [if_neg hout]
        have hrhs : countByName store rd.name = 0 ∧
            rd.name ∈ List.map RoleCreate.name (rd :: rest) :=
          ⟨hz, List.mem_map_of_mem _ (List.mem_cons_self rd rest)⟩
        rw [if_pos hrhs]
      · rw [if_neg hA]
        by_cases hB : countByName store n = 0
        · have hn : ¬ (n = rd.name) := by
            intro he
            refine hA ⟨?_, he.symm⟩
            rw [← he]
            exact hB
          have hiff : n ∈ List.map RoleCreate.name (rd :: rest) ↔
              n ∈ List.map RoleCreate.name rest := by
            simp [List.mem_cons, hn]
          by_cases hmem : n ∈ List.map RoleCreate.name rest
          · rw [if_pos ⟨hB, hmem⟩, if_pos ⟨hB, hiff.mpr hmem⟩]
          · have h1 : ¬ (countByName store n = 0 ∧
                n ∈ List.map RoleCreate.name rest) := fun hc => hmem hc.2
            have h2 : ¬ (countByName store n = 0 ∧
                n ∈ List.map RoleCreate.name (rd :: rest)) :=
              fun hc => hmem (hiff.mp hc.2)
            rw [if_neg h1, if_neg h2]
        · have h1 : ¬ (countByName store n = 0 ∧
              n ∈ List.map RoleCreate.name rest) := fun hc => hB hc.1
          have h2 : ¬ (countByName store n = 0 ∧
              n ∈ List.map RoleCreate.name (rd :: rest)) := fun hc => hB hc.1
          rw [if_neg h1, if_neg h2]

lemma seedRolesAux_preserves (rds : List RoleCreate) :
    ∀ (store : List Role) (ids : Nat → String) (k : Nat) (r : Role),
      r ∈ store → r ∈ seedRolesAux store rds ids k := by
  induction rds with
  | nil =>
      intro store ids k r hr
      simpa [seedRolesAux] using hr
  | cons rd rest ih =>
      intro store ids k r hr
      simp only [seedRolesAux]
      apply ih
      unfold seedStep
      split
      · exact List.mem_append_left _ hr
      · exact hr

lemma seedRolesAux_noop (rds : List RoleCreate) :
    ∀ (store : List Role) (ids : Nat → String) (k : Nat),
      (∀ rd ∈ rds, countByName store rd.name ≠ 0) →
      seedRolesAux store rds ids k = store := by
  induction rds with
  | nil =>
      intro store ids k _
      rfl
  | cons rd rest ih =>
      intro store ids k h
      simp only [seedRolesAux]
      have hstep : seedStep store rd (ids k) = store := by
        unfold seedStep
        have hnz := h rd (List.mem_cons_self rd rest)
        have hne : (store.filter (fun r => r.name == rd.name)).isEmpty = false := by
          cases hh : (store.filter (fun r => r.name == rd.name)).isEmpty
          · rfl
          · exact absurd (by simpa [countByName] using
              List.isEmpty_iff_length_eq_zero.mp hh) hnz
        simp [hne]
      rw [hstep]
      exact ih store ids (k + 1) (fun rd' h' => h rd' (List.mem_cons_of_mem _ h'))

/-- Counterexample for C9: from a starting state holding two role documents
named `admin` (reachable, e.g., by renaming a custom role into a name
collision via `update_role`), seeding twice leaves two documents with the
default name `admin`, not exactly one. -/
theorem C9_counterexample :
    "admin" ∈ defaultRoleNames ∧
    countByName
      (seed_default_roles (seed_default_roles
          [⟨"a1", "admin", "A", none, [], false, true⟩,
           ⟨"a2", "admin", "A", none, [], false, true⟩]
          (fun _ => "x")) (fun _ => "y")) "admin" = 2 := by
  refine ⟨by decide, by decide⟩

/-- C9 amended: seeding creates a default role only when no role with that
name exists and never modifies pre-existing documents; from any starting
state holding at most one role document per default name, seeding twice is
a no-op on the second run and leaves exactly one document per default
name. -/
theorem C9_seed_default_roles_idempotent
    (store : List Role) (ids1 ids2 : Nat → String)
    (h : ∀ n ∈ defaultRoleNames, countByName store n ≤ 1) :
    (∀ r ∈ store, r ∈ seed_default_roles (seed_default_roles store ids1) ids2) ∧
    (seed_default_roles (seed_default_roles store ids1) ids2
      = seed_default_roles store ids1) ∧
    (∀ n ∈ defaultRoleNames,
      countByName (seed_default_roles (seed_default_roles store ids1) ids2) n
        = 1) := by
  have hnoop : seed_default_roles (seed_default_roles store ids1) ids2
      = seed_default_roles store ids1 := by
    unfold seed_default_roles
    apply seedRolesAux_noop
    intro rd hrd
    rw [seedRolesAux_count]
    have hm : rd.name ∈ DEFAULT_ROLES.map RoleCreate.name :=
      List.mem_map_of_mem _ hrd
    by_cases h0 : countByName store rd.name = 0
    · simp [h0, hm]
    · simp [h0]
  refine ⟨?_, hnoop, ?_⟩
  · intro r hr
    exact seedRolesAux_preserves _ _ _ _ _
      (seedRolesAux_preserves _ _ _ _ _ hr)
  · intro n hn
    rw [hnoop]
    unfold seed_default_roles
    rw [seedRolesAux_count]
    have hmem : n ∈ DEFAULT_ROLES.map RoleCreate.name := hn
    by_cases h0 : countByName store n = 0
    · simp [h0, hmem]
    · have h1 : countByName store n = 1 := by
        have := h n hn
        omega
      simp [h0, hmem, h1]

/-- Witness for C9: from the empty store, seeding twice leaves exactly one
role document named `admin`. -/
theorem C9_witness :
    countByName (seed_default_roles (seed_default_roles [] (fun _ => "x"))
      (fun _ => "y")) "admin" = 1 :=
  (C9_seed_default_roles_idempotent [] (fun _ => "x") (fun _ => "y")
      (by decide)).2.2 "admin" (by decide)

end FundOps
